import Mathlib

/-!
Shallow embedding of `pkg/sql/execstats/traceanalyzer.go`.

Modelling conventions:
* Go maps keyed by `roachpb.NodeID`, `execinfrapb.ProcessorID`,
  `execinfrapb.StreamID` become association lists `List (Nat × α)` with
  in-place update (`mapSet`); a read of a missing `int64` key yields 0
  (`alGet`), matching Go map semantics.
* `int64` and `time.Duration` values become `Int` (overflow is irrelevant to
  the aggregation structure studied here).
* Optional protobuf statistics (`HasValue` / `Value`) become `Option Int`;
  fields that the code reads with a bare `.Value()` (defaulting to zero when
  unset) become plain `Int`.
* The external extraction function `execinfrapb.ExtractStatsFromSpans` is an
  opaque pure function of the spans and the determinism flag; a trace is
  therefore modelled as its output: an association list from component
  references to statistics bags, and the determinism flag is absorbed.
* In-place mutation of the analyzer becomes explicit state passing:
  `AddTrace` returns the updated `FlowMetadata` together with the optional
  error (the returned state is the state at the moment of the abort, so
  entries applied before an error stay applied), and `ProcessStats` returns
  the node-level stats, the query-level stats and the list of recoverable
  errors (`errors.CombineErrors` accumulation becomes list append; the Go
  error is non-nil exactly when the list is nonempty).
-/

/-- Association-list read of a Go map; `none` when the key is absent. -/
def mapGet? {α : Type} : List (Nat × α) → Nat → Option α
  | [], _ => none
  | (k, v) :: rest, key => if k = key then some v else mapGet? rest key

/-- Association-list write of a Go map: update in place if the key is
present, otherwise append. -/
def mapSet {α : Type} : List (Nat × α) → Nat → α → List (Nat × α)
  | [], key, val => [(key, val)]
  | (k, v) :: rest, key, val =>
    if k = key then (key, val) :: rest else (k, v) :: mapSet rest key val

/-- Reading an `int64`-valued Go map defaults a missing key to zero. -/
def alGet (m : List (Nat × Int)) (k : Nat) : Int := (mapGet? m k).getD 0

/-- Go `m[k] = v` on an `int64`-valued map. -/
def alSet (m : List (Nat × Int)) (k : Nat) (v : Int) : List (Nat × Int) :=
  mapSet m k v

/-- Go `m[k] += v` on an `int64`-valued map. -/
def alAdd (m : List (Nat × Int)) (k : Nat) (v : Int) : List (Nat × Int) :=
  alSet m k (alGet m k + v)

/-- Transcription of a Go `for _, v := range m { acc += v }` loop. -/
def alSumLoop (m : List (Nat × Int)) (acc : Int) : Int :=
  m.foldl (fun a p => a + p.2) acc

/-- Transcription of a Go `for _, v := range m { if v > acc { acc = v } }`
loop. -/
def alMaxLoop (m : List (Nat × Int)) (acc : Int) : Int :=
  m.foldl (fun a p => if p.2 > a then p.2 else a) acc

/-- Namespace `NetRx` of `execinfrapb.ComponentStats`: optional receive-side
network counters. -/
structure NetRxStats where
  bytesReceived : Option Int
  messagesReceived : Option Int
  deriving Repr, DecidableEq

/-- Namespace `NetTx` of `execinfrapb.ComponentStats`: optional send-side
network counters. -/
structure NetTxStats where
  bytesSent : Option Int
  messagesSent : Option Int
  deriving Repr, DecidableEq

/-- Namespace `KV` of `execinfrapb.ComponentStats`; the code reads these four
fields with a bare `.Value()`, so they are plain integers here. -/
structure KVStats where
  bytesRead : Int
  tuplesRead : Int
  kvTime : Int
  contentionTime : Int
  deriving Repr, DecidableEq

/-- Namespace `FlowStats` of `execinfrapb.ComponentStats`: the optional peak
memory usage (`MaxMemUsage`), read behind a `HasValue` check. -/
structure FlowLevelStats where
  maxMemUsage : Option Int
  deriving Repr, DecidableEq

/-- A statistics bag: `execinfrapb.ComponentStats`. -/
structure ComponentStats where
  netRx : NetRxStats
  netTx : NetTxStats
  kv : KVStats
  flowStats : FlowLevelStats
  deriving Repr, DecidableEq

/-- Component kinds of `execinfrapb.ComponentID.Type` that `AddTrace`
dispatches on. -/
inductive ComponentType where
  | processor
  | stream
  | flow
  deriving Repr, DecidableEq

/-- Component reference `execinfrapb.ComponentID`: the kind tag, the
processor/stream id (`ID`), and the node id used for flow components. -/
structure ComponentID where
  type : ComponentType
  id : Nat
  nodeID : Nat
  deriving Repr, DecidableEq

/-- Stream endpoint kind of `execinfrapb.StreamEndpointSpec_Type`. -/
inductive StreamEndpointType where
  | local
  | remote
  deriving Repr, DecidableEq

/-- Stream descriptor `execinfrapb.StreamEndpointSpec`. -/
structure StreamEndpointSpec where
  streamID : Nat
  type : StreamEndpointType
  targetNodeID : Nat
  deriving Repr, DecidableEq

/-- Output router `execinfrapb.OutputRouterSpec` (only its streams matter
here). -/
structure OutputRouterSpec where
  streams : List StreamEndpointSpec
  deriving Repr, DecidableEq

/-- Processor descriptor `execinfrapb.ProcessorSpec` (id and outputs). -/
structure ProcessorSpec where
  processorID : Nat
  output : List OutputRouterSpec
  deriving Repr, DecidableEq

/-- Flow spec `execinfrapb.FlowSpec` (its processors). -/
structure FlowSpec where
  processors : List ProcessorSpec
  deriving Repr, DecidableEq

/-- Go struct `processorStats`: owner node plus the optional attached bag. -/
structure ProcessorStatsEntry where
  nodeID : Nat
  stats : Option ComponentStats
  deriving Repr, DecidableEq

/-- Go struct `streamStats`: origin and destination nodes plus the optional
attached bag. -/
structure StreamStatsEntry where
  originNodeID : Nat
  destinationNodeID : Nat
  stats : Option ComponentStats
  deriving Repr, DecidableEq

/-- Go struct `flowStats`: the growable list of flow-level bags of a node. -/
structure FlowStatsEntry where
  stats : List ComponentStats
  deriving Repr, DecidableEq

/-- Go struct `FlowMetadata`: the three id-keyed maps. -/
structure FlowMetadata where
  processorStats : List (Nat × ProcessorStatsEntry)
  streamStats : List (Nat × StreamStatsEntry)
  flowStats : List (Nat × FlowStatsEntry)
  deriving Repr, DecidableEq

/-- Body of the innermost loop of `NewFlowMetadata`: register a stream
identity when the stream is remote. -/
def registerStream (nodeID : Nat) (a : FlowMetadata) (stream : StreamEndpointSpec) :
    FlowMetadata :=
  if stream.type = StreamEndpointType.remote then
    { a with
      streamStats := mapSet a.streamStats stream.streamID ⟨nodeID, stream.targetNodeID, none⟩ }
  else a

/-- Body of the processor loop of `NewFlowMetadata`: register the processor
identity, then walk its outputs and streams. -/
def registerProcessor (nodeID : Nat) (a : FlowMetadata) (proc : ProcessorSpec) :
    FlowMetadata :=
  let a := { a with
    processorStats := mapSet a.processorStats proc.processorID ⟨nodeID, none⟩ }
  proc.output.foldl (fun a output => output.streams.foldl (registerStream nodeID) a) a

/-- Body of the node loop of `NewFlowMetadata`: create the node's flow slot,
then register its processors. -/
def registerNode (a : FlowMetadata) (p : Nat × FlowSpec) : FlowMetadata :=
  let a := { a with flowStats := mapSet a.flowStats p.1 ⟨[]⟩ }
  p.2.processors.foldl (registerProcessor p.1) a

/-- Go `NewFlowMetadata`: annotate empty maps with the physical plan. -/
def NewFlowMetadata (flows : List (Nat × FlowSpec)) : FlowMetadata :=
  flows.foldl registerNode ⟨[], [], []⟩

/-- Error message of the unknown-processor branch of `AddTrace`. -/
def errUnknownProcessor (id : Nat) : String :=
  "trace has span for processor " ++ toString id ++
    " but the processor does not exist in the physical plan"

/-- Error message of the unknown-stream branch of `AddTrace`. -/
def errUnknownStream (id : Nat) : String :=
  "trace has span for stream " ++ toString id ++
    " but the stream does not exist in the physical plan"

/-- Error message of the unknown-flow branch of `AddTrace`. -/
def errUnknownFlow (nodeID : Nat) : String :=
  "trace has span for flow on node " ++ toString nodeID ++
    " but the flow does not exist in the physical plan"

/-- Go `TraceAnalyzer.AddTrace`, iterating the extracted component map: look
each reference up, attach processor/stream bags with overwrite, append flow
bags to the node's slot, and abort with an error on the first unknown
reference, returning the state accumulated so far. -/
def AddTrace (a : FlowMetadata) :
    List (ComponentID × ComponentStats) → FlowMetadata × Option String
  | [] => (a, none)
  | (component, componentStats) :: rest =>
    match component.type with
    | ComponentType.processor =>
      match mapGet? a.processorStats component.id with
      | none => (a, some (errUnknownProcessor component.id))
      | some processorStats =>
        AddTrace
          { a with
            processorStats := mapSet a.processorStats component.id
              { processorStats with stats := some componentStats } }
          rest
    | ComponentType.stream =>
      match mapGet? a.streamStats component.id with
      | none => (a, some (errUnknownStream component.id))
      | some streamStats =>
        AddTrace
          { a with
            streamStats := mapSet a.streamStats component.id
              { streamStats with stats := some componentStats } }
          rest
    | ComponentType.flow =>
      match mapGet? a.flowStats component.nodeID with
      | none => (a, some (errUnknownFlow component.nodeID))
      | some flowStats =>
        AddTrace
          { a with
            flowStats := mapSet a.flowStats component.nodeID
              ⟨flowStats.stats ++ [componentStats]⟩ }
          rest

/-- Go struct `NodeLevelStats`: the seven node-keyed series. -/
structure NodeLevelStats where
  networkBytesSentGroupedByNode : List (Nat × Int)
  maxMemoryUsageGroupedByNode : List (Nat × Int)
  kvBytesReadGroupedByNode : List (Nat × Int)
  kvRowsReadGroupedByNode : List (Nat × Int)
  kvTimeGroupedByNode : List (Nat × Int)
  networkMessagesGroupedByNode : List (Nat × Int)
  contentionTimeGroupedByNode : List (Nat × Int)
  deriving Repr, DecidableEq

/-- Go struct `QueryLevelStats`: the seven query-level scalars. -/
structure QueryLevelStats where
  networkBytesSent : Int
  maxMemUsage : Int
  kvBytesRead : Int
  kvRowsRead : Int
  kvTime : Int
  networkMessages : Int
  contentionTime : Int
  deriving Repr, DecidableEq

/-- Go zero value of `QueryLevelStats` (also the literal built at the start
of the query-level phase of `ProcessStats`, whose omitted `ContentionTime`
field is zero). -/
def zeroQueryLevelStats : QueryLevelStats := ⟨0, 0, 0, 0, 0, 0, 0⟩

/-- Go `QueryLevelStats.Accumulate`: sum the additive fields, max the peak
memory field. -/
def QueryLevelStats.Accumulate (s other : QueryLevelStats) : QueryLevelStats :=
  { networkBytesSent := s.networkBytesSent + other.networkBytesSent
    maxMemUsage :=
      if other.maxMemUsage > s.maxMemUsage then other.maxMemUsage else s.maxMemUsage
    kvBytesRead := s.kvBytesRead + other.kvBytesRead
    kvRowsRead := s.kvRowsRead + other.kvRowsRead
    kvTime := s.kvTime + other.kvTime
    networkMessages := s.networkMessages + other.networkMessages
    contentionTime := s.contentionTime + other.contentionTime }

/-- Go `getNetworkBytesFromComponentStats`: exactly one of `BytesReceived`
and `BytesSent` must be set. -/
def getNetworkBytesFromComponentStats (v : ComponentStats) : Except String Int :=
  match v.netRx.bytesReceived with
  | some bytesReceived =>
    match v.netTx.bytesSent with
    | some _ =>
      Except.error "could not get network bytes; both BytesReceived and BytesSent are set"
    | none => Except.ok bytesReceived
  | none =>
    match v.netTx.bytesSent with
    | some bytesSent => Except.ok bytesSent
    | none =>
      Except.error "could not get network bytes; neither BytesReceived and BytesSent is set"

/-- Go `getNumNetworkMessagesFromComponentsStats`: exactly one of
`MessagesReceived` and `MessagesSent` must be set. -/
def getNumNetworkMessagesFromComponentsStats (v : ComponentStats) : Except String Int :=
  match v.netRx.messagesReceived with
  | some messagesReceived =>
    match v.netTx.messagesSent with
    | some _ =>
      Except.error "could not get network messages; both MessagesReceived and MessagesSent are set"
    | none => Except.ok messagesReceived
  | none =>
    match v.netTx.messagesSent with
    | some messagesSent => Except.ok messagesSent
    | none =>
      Except.error "could not get network messages; neither MessagesReceived and MessagesSent is set"

/-- Empty `NodeLevelStats` made at the start of `ProcessStats`. -/
def initNodeLevelStats : NodeLevelStats := ⟨[], [], [], [], [], [], []⟩

/-- Body of the `processorStats` loop of `ProcessStats`: skip an absent bag,
otherwise add the four KV fields into the owner node's series. -/
def processProcessorStep (nls : NodeLevelStats) (p : Nat × ProcessorStatsEntry) :
    NodeLevelStats :=
  match p.2.stats with
  | none => nls
  | some cs =>
    { nls with
      kvBytesReadGroupedByNode :=
        alAdd nls.kvBytesReadGroupedByNode p.2.nodeID cs.kv.bytesRead
      kvRowsReadGroupedByNode :=
        alAdd nls.kvRowsReadGroupedByNode p.2.nodeID cs.kv.tuplesRead
      kvTimeGroupedByNode :=
        alAdd nls.kvTimeGroupedByNode p.2.nodeID cs.kv.kvTime
      contentionTimeGroupedByNode :=
        alAdd nls.contentionTimeGroupedByNode p.2.nodeID cs.kv.contentionTime }

/-- Body of the `streamStats` loop of `ProcessStats`: network bytes (with the
exclusivity check), then the stream-carried peak memory, then network
messages (with the exclusivity check); errors are collected, never fatal. -/
def processStreamStep (acc : NodeLevelStats × List String)
    (p : Nat × StreamStatsEntry) : NodeLevelStats × List String :=
  match p.2.stats with
  | none => acc
  | some cs =>
    let step1 : NodeLevelStats × List String :=
      match getNetworkBytesFromComponentStats cs with
      | Except.error e =>
        (acc.1, acc.2 ++ ["error calculating network bytes sent: " ++ e])
      | Except.ok bytes =>
        ({ acc.1 with
           networkBytesSentGroupedByNode :=
             alAdd acc.1.networkBytesSentGroupedByNode p.2.originNodeID bytes },
          acc.2)
    let step2 : NodeLevelStats :=
      match cs.flowStats.maxMemUsage with
      | some memUsage =>
        if memUsage > alGet step1.1.maxMemoryUsageGroupedByNode p.2.originNodeID then
          { step1.1 with
            maxMemoryUsageGroupedByNode :=
              alSet step1.1.maxMemoryUsageGroupedByNode p.2.originNodeID memUsage }
        else step1.1
      | none => step1.1
    match getNumNetworkMessagesFromComponentsStats cs with
    | Except.error e =>
      (step2, step1.2 ++ ["error calculating number of network messages: " ++ e])
    | Except.ok numMessages =>
      ({ step2 with
         networkMessagesGroupedByNode :=
           alAdd step2.networkMessagesGroupedByNode p.2.originNodeID numMessages },
        step1.2)

/-- Body of the inner loop of the `flowStats` phase of `ProcessStats`:
max-reduce one flow-level bag's peak memory into the node's series. -/
def flowSlotStep (nodeID : Nat) (nls : NodeLevelStats) (v : ComponentStats) :
    NodeLevelStats :=
  match v.flowStats.maxMemUsage with
  | some memUsage =>
    if memUsage > alGet nls.maxMemoryUsageGroupedByNode nodeID then
      { nls with
        maxMemoryUsageGroupedByNode :=
          alSet nls.maxMemoryUsageGroupedByNode nodeID memUsage }
    else nls
  | none => nls

/-- Body of the `flowStats` loop of `ProcessStats`: fold the node's flow-slot
list, max-reducing each present peak memory into the node's series. -/
def processFlowStep (nls : NodeLevelStats) (p : Nat × FlowStatsEntry) :
    NodeLevelStats :=
  p.2.stats.foldl (flowSlotStep p.1) nls

/-- Go `TraceAnalyzer.ProcessStats`: the three node-level loops, then the
seven query-level loops (each Go loop reads one series and updates one scalar
starting from the zero struct; note the contention loop ranges over
`KVTimeGroupedByNode`). Returns the node-level stats, the query-level stats
and the collected recoverable errors. -/
def ProcessStats (a : FlowMetadata) :
    NodeLevelStats × QueryLevelStats × List String :=
  let nls1 := a.processorStats.foldl processProcessorStep initNodeLevelStats
  let sacc := a.streamStats.foldl processStreamStep (nls1, [])
  let nls := a.flowStats.foldl processFlowStep sacc.1
  let q : QueryLevelStats :=
    { networkBytesSent := alSumLoop nls.networkBytesSentGroupedByNode 0
      maxMemUsage := alMaxLoop nls.maxMemoryUsageGroupedByNode 0
      kvBytesRead := alSumLoop nls.kvBytesReadGroupedByNode 0
      kvRowsRead := alSumLoop nls.kvRowsReadGroupedByNode 0
      kvTime := alSumLoop nls.kvTimeGroupedByNode 0
      networkMessages := alSumLoop nls.networkMessagesGroupedByNode 0
      contentionTime := alSumLoop nls.kvTimeGroupedByNode 0 }
  (nls, q, sacc.2)

/-- Body of the topology loop of the package-level `GetQueryLevelStats`:
failed ingestion or a failed reduction records errors and keeps the previous
scalar; success replaces the scalar. -/
def driverStep (trace : List (ComponentID × ComponentStats))
    (acc : QueryLevelStats × List String) (metadata : FlowMetadata) :
    QueryLevelStats × List String :=
  let r := AddTrace metadata trace
  match r.2 with
  | some e => (acc.1, acc.2 ++ ["error analyzing trace statistics: " ++ e])
  | none =>
    let p := ProcessStats r.1
    if p.2.2 = [] then (p.2.1, acc.2) else (acc.1, acc.2 ++ p.2.2)

/-- Package-level Go `GetQueryLevelStats`: run ingestion and reduction for
each topology over the shared trace, combining failures and keeping the last
successful scalar. -/
def GetQueryLevelStats (trace : List (ComponentID × ComponentStats))
    (flowMetadata : List FlowMetadata) : QueryLevelStats × List String :=
  flowMetadata.foldl (driverStep trace) (zeroQueryLevelStats, [])

/-! Helper lemmas about the association-list map operations. -/

theorem mapGet?_mapSet {α : Type} (m : List (Nat × α)) (k key : Nat) (v : α) :
    mapGet? (mapSet m k v) key = if k = key then some v else mapGet? m key := by
  induction m with
  | nil =>
    by_cases h : k = key <;> simp [mapSet, mapGet?, h]
  | cons p rest ih =>
    obtain ⟨pk, pv⟩ := p
    by_cases hpk : pk = k
    · subst hpk
      by_cases h : pk = key <;> simp [mapSet, mapGet?, h]
    · by_cases h : pk = key
      · subst h
        have hk : ¬k = pk := fun hh => hpk hh.symm
        simp [mapSet, mapGet?, hpk, hk]
      · simp [mapSet, mapGet?, hpk, h, ih]

theorem alGet_alSet (m : List (Nat × Int)) (k key : Nat) (v : Int) :
    alGet (alSet m k v) key = if k = key then v else alGet m key := by
  simp only [alGet, alSet, mapGet?_mapSet]
  by_cases h : k = key <;> simp [h]


theorem alGet_alAdd (m : List (Nat × Int)) (k key : Nat) (v : Int) :
    alGet (alAdd m k v) key = if k = key then alGet m key + v else alGet m key := by
  simp only [alAdd, alGet_alSet]
  by_cases h : k = key <;> simp [h]

theorem mapSet_of_get_none {α : Type} (m : List (Nat × α)) (k : Nat) (v : α)
    (h : mapGet? m k = none) : mapSet m k v = m ++ [(k, v)] := by
  induction m with
  | nil => simp [mapSet]
  | cons p rest ih =>
    obtain ⟨pk, pv⟩ := p
    by_cases hpk : pk = k
    · simp [mapGet?, hpk] at h
    · simp only [mapGet?, hpk, if_false] at h
      simp [mapSet, hpk, ih h]

theorem alSumLoop_eq (m : List (Nat × Int)) (i : Int) :
    alSumLoop m i = i + (m.map Prod.snd).sum := by
  induction m generalizing i with
  | nil => simp [alSumLoop]
  | cons p rest ih =>
    simp only [alSumLoop, List.foldl_cons] at *
    rw [ih]
    simp [List.sum_cons]
    ring

theorem maxStep_eq_max (a v : Int) : (if v > a then v else a) = max a v := by
  by_cases h : v > a
  · simp [h, max_eq_right (le_of_lt h)]
  · simp [h, max_eq_left (not_lt.mp h)]

theorem alMaxLoop_eq (m : List (Nat × Int)) (i : Int) :
    alMaxLoop m i = (m.map Prod.snd).foldl max i := by
  induction m generalizing i with
  | nil => simp [alMaxLoop]
  | cons p rest ih =>
    simp only [alMaxLoop, List.foldl_cons, List.map_cons] at *
    rw [show (if p.2 > i then p.2 else i) = max i p.2 from maxStep_eq_max i p.2, ih]

/-! Characterizations of the loop bodies of `ProcessStats`. -/

/-- Running-max update of one key of a series by an optional peak value, the
shape shared by the stream and flow-slot peak-memory code paths. -/
def maxMemUpdate (m : List (Nat × Int)) (node : Nat) (peak : Option Int) :
    List (Nat × Int) :=
  match peak with
  | some memUsage =>
    if memUsage > alGet m node then alSet m node memUsage else m
  | none => m

/-- Errors contributed by the network-bytes exclusivity check of one stream. -/
def bytesErrsOf (cs : ComponentStats) : List String :=
  match getNetworkBytesFromComponentStats cs with
  | Except.error e => ["error calculating network bytes sent: " ++ e]
  | Except.ok _ => []

/-- Errors contributed by the network-messages exclusivity check of one
stream. -/
def messagesErrsOf (cs : ComponentStats) : List String :=
  match getNumNetworkMessagesFromComponentsStats cs with
  | Except.error e => ["error calculating number of network messages: " ++ e]
  | Except.ok _ => []

/-- Network-bytes series update of one stream: add on success, skip on an
exclusivity violation. -/
def bytesMapUpdate (m : List (Nat × Int)) (origin : Nat) (cs : ComponentStats) :
    List (Nat × Int) :=
  match getNetworkBytesFromComponentStats cs with
  | Except.ok bytes => alAdd m origin bytes
  | Except.error _ => m

/-- Network-messages series update of one stream: add on success, skip on an
exclusivity violation. -/
def messagesMapUpdate (m : List (Nat × Int)) (origin : Nat) (cs : ComponentStats) :
    List (Nat × Int) :=
  match getNumNetworkMessagesFromComponentsStats cs with
  | Except.ok numMessages => alAdd m origin numMessages
  | Except.error _ => m

theorem flowSlotStep_eq (nodeID : Nat) (nls : NodeLevelStats) (v : ComponentStats) :
    flowSlotStep nodeID nls v =
      { nls with
        maxMemoryUsageGroupedByNode :=
          maxMemUpdate nls.maxMemoryUsageGroupedByNode nodeID v.flowStats.maxMemUsage } := by
  cases h : v.flowStats.maxMemUsage with
  | none => simp [flowSlotStep, maxMemUpdate, h]
  | some memUsage =>
    simp only [flowSlotStep, maxMemUpdate, h]
    split <;> rfl

theorem processStreamStep_eq (acc : NodeLevelStats × List String)
    (p : Nat × StreamStatsEntry) :
    processStreamStep acc p =
      match p.2.stats with
      | none => acc
      | some cs =>
        ({ acc.1 with
           networkBytesSentGroupedByNode :=
             bytesMapUpdate acc.1.networkBytesSentGroupedByNode p.2.originNodeID cs
           maxMemoryUsageGroupedByNode :=
             maxMemUpdate acc.1.maxMemoryUsageGroupedByNode p.2.originNodeID
               cs.flowStats.maxMemUsage
           networkMessagesGroupedByNode :=
             messagesMapUpdate acc.1.networkMessagesGroupedByNode p.2.originNodeID cs },
          acc.2 ++ bytesErrsOf cs ++ messagesErrsOf cs) := by
  cases hs : p.2.stats with
  | none => simp [processStreamStep, hs]
  | some cs =>
    simp only [processStreamStep, hs, bytesMapUpdate, messagesMapUpdate, maxMemUpdate,
      bytesErrsOf, messagesErrsOf]
    cases hb : getNetworkBytesFromComponentStats cs with
    | error e =>
      cases hmm : cs.flowStats.maxMemUsage with
      | none =>
        cases hm : getNumNetworkMessagesFromComponentsStats cs <;> simp [hb, hmm, hm]
      | some memUsage =>
        cases hm : getNumNetworkMessagesFromComponentsStats cs <;>
          simp [hb, hmm, hm] <;> split <;> simp
    | ok bytes =>
      cases hmm : cs.flowStats.maxMemUsage with
      | none =>
        cases hm : getNumNetworkMessagesFromComponentsStats cs <;> simp [hb, hmm, hm]
      | some memUsage =>
        cases hm : getNumNetworkMessagesFromComponentsStats cs <;>
          simp [hb, hmm, hm] <;> split <;> simp

/-! Preservation lemmas: each loop of `ProcessStats` touches only its own
series. -/

theorem processProcessorStep_preserves (nls : NodeLevelStats)
    (p : Nat × ProcessorStatsEntry) :
    (processProcessorStep nls p).networkBytesSentGroupedByNode
        = nls.networkBytesSentGroupedByNode
    ∧ (processProcessorStep nls p).maxMemoryUsageGroupedByNode
        = nls.maxMemoryUsageGroupedByNode
    ∧ (processProcessorStep nls p).networkMessagesGroupedByNode
        = nls.networkMessagesGroupedByNode := by
  cases h : p.2.stats <;> simp [processProcessorStep, h]

theorem procFold_preserves (ps : List (Nat × ProcessorStatsEntry))
    (nls : NodeLevelStats) :
    ((ps.foldl processProcessorStep nls).networkBytesSentGroupedByNode
        = nls.networkBytesSentGroupedByNode)
    ∧ ((ps.foldl processProcessorStep nls).maxMemoryUsageGroupedByNode
        = nls.maxMemoryUsageGroupedByNode)
    ∧ ((ps.foldl processProcessorStep nls).networkMessagesGroupedByNode
        = nls.networkMessagesGroupedByNode) := by
  induction ps generalizing nls with
  | nil => simp
  | cons p rest ih =>
    simp only [List.foldl_cons]
    obtain ⟨h1, h2, h3⟩ := ih (processProcessorStep nls p)
    obtain ⟨g1, g2, g3⟩ := processProcessorStep_preserves nls p
    exact ⟨h1.trans g1, h2.trans g2, h3.trans g3⟩

theorem processStreamStep_preserves (acc : NodeLevelStats × List String)
    (p : Nat × StreamStatsEntry) :
    ((processStreamStep acc p).1.kvBytesReadGroupedByNode
        = acc.1.kvBytesReadGroupedByNode)
    ∧ ((processStreamStep acc p).1.kvRowsReadGroupedByNode
        = acc.1.kvRowsReadGroupedByNode)
    ∧ ((processStreamStep acc p).1.kvTimeGroupedByNode
        = acc.1.kvTimeGroupedByNode)
    ∧ ((processStreamStep acc p).1.contentionTimeGroupedByNode
        = acc.1.contentionTimeGroupedByNode) := by
  rw [processStreamStep_eq]
  cases h : p.2.stats <;> simp

theorem streamFold_preserves (ss : List (Nat × StreamStatsEntry))
    (acc : NodeLevelStats × List String) :
    ((ss.foldl processStreamStep acc).1.kvBytesReadGroupedByNode
        = acc.1.kvBytesReadGroupedByNode)
    ∧ ((ss.foldl processStreamStep acc).1.kvRowsReadGroupedByNode
        = acc.1.kvRowsReadGroupedByNode)
    ∧ ((ss.foldl processStreamStep acc).1.kvTimeGroupedByNode
        = acc.1.kvTimeGroupedByNode)
    ∧ ((ss.foldl processStreamStep acc).1.contentionTimeGroupedByNode
        = acc.1.contentionTimeGroupedByNode) := by
  induction ss generalizing acc with
  | nil => simp
  | cons p rest ih =>
    simp only [List.foldl_cons]
    obtain ⟨h1, h2, h3, h4⟩ := ih (processStreamStep acc p)
    obtain ⟨g1, g2, g3, g4⟩ := processStreamStep_preserves acc p
    exact ⟨h1.trans g1, h2.trans g2, h3.trans g3, h4.trans g4⟩

theorem flowSlotStep_preserves (nodeID : Nat) (nls : NodeLevelStats)
    (v : ComponentStats) :
    ((flowSlotStep nodeID nls v).networkBytesSentGroupedByNode
        = nls.networkBytesSentGroupedByNode)
    ∧ ((flowSlotStep nodeID nls v).kvBytesReadGroupedByNode
        = nls.kvBytesReadGroupedByNode)
    ∧ ((flowSlotStep nodeID nls v).kvRowsReadGroupedByNode
        = nls.kvRowsReadGroupedByNode)
    ∧ ((flowSlotStep nodeID nls v).kvTimeGroupedByNode
        = nls.kvTimeGroupedByNode)
    ∧ ((flowSlotStep nodeID nls v).networkMessagesGroupedByNode
        = nls.networkMessagesGroupedByNode)
    ∧ ((flowSlotStep nodeID nls v).contentionTimeGroupedByNode
        = nls.contentionTimeGroupedByNode) := by
  rw [flowSlotStep_eq]
  simp

theorem flowSlotFold_preserves (nodeID : Nat) (css : List ComponentStats)
    (nls : NodeLevelStats) :
    ((css.foldl (flowSlotStep nodeID) nls).networkBytesSentGroupedByNode
        = nls.networkBytesSentGroupedByNode)
    ∧ ((css.foldl (flowSlotStep nodeID) nls).kvBytesReadGroupedByNode
        = nls.kvBytesReadGroupedByNode)
    ∧ ((css.foldl (flowSlotStep nodeID) nls).kvRowsReadGroupedByNode
        = nls.kvRowsReadGroupedByNode)
    ∧ ((css.foldl (flowSlotStep nodeID) nls).kvTimeGroupedByNode
        = nls.kvTimeGroupedByNode)
    ∧ ((css.foldl (flowSlotStep nodeID) nls).networkMessagesGroupedByNode
        = nls.networkMessagesGroupedByNode)
    ∧ ((css.foldl (flowSlotStep nodeID) nls).contentionTimeGroupedByNode
        = nls.contentionTimeGroupedByNode) := by
  induction css generalizing nls with
  | nil => simp
  | cons v rest ih =>
    simp only [List.foldl_cons]
    obtain ⟨h1, h2, h3, h4, h5, h6⟩ := ih (flowSlotStep nodeID nls v)
    obtain ⟨g1, g2, g3, g4, g5, g6⟩ := flowSlotStep_preserves nodeID nls v
    exact ⟨h1.trans g1, h2.trans g2, h3.trans g3, h4.trans g4, h5.trans g5, h6.trans g6⟩

theorem flowFold_preserves (fs : List (Nat × FlowStatsEntry))
    (nls : NodeLevelStats) :
    ((fs.foldl processFlowStep nls).networkBytesSentGroupedByNode
        = nls.networkBytesSentGroupedByNode)
    ∧ ((fs.foldl processFlowStep nls).kvBytesReadGroupedByNode
        = nls.kvBytesReadGroupedByNode)
    ∧ ((fs.foldl processFlowStep nls).kvRowsReadGroupedByNode
        = nls.kvRowsReadGroupedByNode)
    ∧ ((fs.foldl processFlowStep nls).kvTimeGroupedByNode
        = nls.kvTimeGroupedByNode)
    ∧ ((fs.foldl processFlowStep nls).networkMessagesGroupedByNode
        = nls.networkMessagesGroupedByNode)
    ∧ ((fs.foldl processFlowStep nls).contentionTimeGroupedByNode
        = nls.contentionTimeGroupedByNode) := by
  induction fs generalizing nls with
  | nil => simp
  | cons p rest ih =>
    simp only [List.foldl_cons]
    obtain ⟨h1, h2, h3, h4, h5, h6⟩ := ih (processFlowStep nls p)
    obtain ⟨g1, g2, g3, g4, g5, g6⟩ := flowSlotFold_preserves p.1 p.2.stats nls
    exact ⟨h1.trans g1, h2.trans g2, h3.trans g3, h4.trans g4, h5.trans g5, h6.trans g6⟩

/-! Per-node characterizations of the three aggregation loops. -/

theorem alGet_maxMemUpdate (m : List (Nat × Int)) (node : Nat)
    (peak : Option Int) (key : Nat) :
    alGet (maxMemUpdate m node peak) key =
      match peak with
      | some v => if node = key then max (alGet m key) v else alGet m key
      | none => alGet m key := by
  cases peak with
  | none => rfl
  | some v =>
    simp only [maxMemUpdate]
    by_cases hn : node = key
    · subst hn
      by_cases hv : v > alGet m node
      · simp [hv, alGet_alSet, max_eq_right (le_of_lt hv)]
      · simp [hv, max_eq_left (not_lt.mp hv)]
    · by_cases hv : v > alGet m node <;> simp [hv, alGet_alSet, hn]

/-- Peak-memory values carried by stream bags originating at a node (the
stream flow sub-bag source of max-memory). -/
def streamPeaksAt (ss : List (Nat × StreamStatsEntry)) (node : Nat) : List Int :=
  ss.filterMap (fun p =>
    match p.2.stats with
    | some cs => if p.2.originNodeID = node then cs.flowStats.maxMemUsage else none
    | none => none)

theorem streamFold_maxMem (ss : List (Nat × StreamStatsEntry))
    (acc : NodeLevelStats × List String) (node : Nat) :
    alGet ((ss.foldl processStreamStep acc).1.maxMemoryUsageGroupedByNode) node
      = (streamPeaksAt ss node).foldl max
          (alGet acc.1.maxMemoryUsageGroupedByNode node) := by
  induction ss generalizing acc with
  | nil => simp [streamPeaksAt]
  | cons p rest ih =>
    simp only [List.foldl_cons]
    rw [ih]
    cases hs : p.2.stats with
    | none =>
      rw [processStreamStep_eq]
      simp [hs, streamPeaksAt]
    | some cs =>
      have hmm :
          alGet ((processStreamStep acc p).1.maxMemoryUsageGroupedByNode) node =
            match cs.flowStats.maxMemUsage with
            | some v =>
              if p.2.originNodeID = node
              then max (alGet acc.1.maxMemoryUsageGroupedByNode node) v
              else alGet acc.1.maxMemoryUsageGroupedByNode node
            | none => alGet acc.1.maxMemoryUsageGroupedByNode node := by
        rw [processStreamStep_eq]
        simp only [hs]
        exact alGet_maxMemUpdate _ _ _ _
      cases hp : cs.flowStats.maxMemUsage with
      | none =>
        rw [hmm]
        by_cases ho : p.2.originNodeID = node <;>
          simp [streamPeaksAt, List.filterMap_cons, hs, hp, ho]
      | some v =>
        by_cases ho : p.2.originNodeID = node
        · rw [hmm]
          simp only [hp, ho, if_true]
          simp [streamPeaksAt, List.filterMap_cons, hs, hp, ho]
        · rw [hmm]
          simp only [hp, ho, if_false]
          simp [streamPeaksAt, List.filterMap_cons, hs, hp, ho]

/-- Peak-memory values present in a flow-slot list (the flow-slot source of
max-memory). -/
def flowSlotPeaks (css : List ComponentStats) : List Int :=
  css.filterMap (fun v => v.flowStats.maxMemUsage)

theorem flowSlotFold_maxMem (k : Nat) (css : List ComponentStats)
    (nls : NodeLevelStats) (node : Nat) :
    alGet ((css.foldl (flowSlotStep k) nls).maxMemoryUsageGroupedByNode) node
      = (if k = node then flowSlotPeaks css else []).foldl max
          (alGet nls.maxMemoryUsageGroupedByNode node) := by
  induction css generalizing nls with
  | nil => by_cases hk : k = node <;> simp [flowSlotPeaks, hk]
  | cons v rest ih =>
    simp only [List.foldl_cons]
    rw [ih]
    have hstep :
        alGet ((flowSlotStep k nls v).maxMemoryUsageGroupedByNode) node =
          match v.flowStats.maxMemUsage with
          | some w =>
            if k = node then max (alGet nls.maxMemoryUsageGroupedByNode node) w
            else alGet nls.maxMemoryUsageGroupedByNode node
          | none => alGet nls.maxMemoryUsageGroupedByNode node := by
      rw [flowSlotStep_eq]
      exact alGet_maxMemUpdate _ _ _ _
    cases hp : v.flowStats.maxMemUsage with
    | none =>
      rw [hstep]
      by_cases hk : k = node <;> simp [flowSlotPeaks, List.filterMap_cons, hp, hk]
    | some w =>
      rw [hstep]
      by_cases hk : k = node <;> simp [flowSlotPeaks, List.filterMap_cons, hp, hk]

/-- Peak-memory values of all flow-slot entries of a node. -/
def flowPeaksAt (fs : List (Nat × FlowStatsEntry)) (node : Nat) : List Int :=
  (fs.map (fun p => if p.1 = node then flowSlotPeaks p.2.stats else [])).flatten

theorem flowFold_maxMem (fs : List (Nat × FlowStatsEntry))
    (nls : NodeLevelStats) (node : Nat) :
    alGet ((fs.foldl processFlowStep nls).maxMemoryUsageGroupedByNode) node
      = (flowPeaksAt fs node).foldl max
          (alGet nls.maxMemoryUsageGroupedByNode node) := by
  induction fs generalizing nls with
  | nil => simp [flowPeaksAt]
  | cons p rest ih =>
    simp only [List.foldl_cons]
    rw [ih]
    show (flowPeaksAt rest node).foldl max
        (alGet ((p.2.stats.foldl (flowSlotStep p.1) nls).maxMemoryUsageGroupedByNode) node)
      = _
    rw [flowSlotFold_maxMem]
    simp only [flowPeaksAt, List.map_cons, List.flatten_cons, List.foldl_append]

/-- Values of one KV field contributed by the processors owned by a node
whose bag is present (an absent bag contributes nothing, not zero). -/
def procContribsAt (ps : List (Nat × ProcessorStatsEntry)) (node : Nat)
    (f : ComponentStats → Int) : List Int :=
  ps.filterMap (fun p =>
    match p.2.stats with
    | some cs => if p.2.nodeID = node then some (f cs) else none
    | none => none)

theorem procFold_kvBytesRead (ps : List (Nat × ProcessorStatsEntry))
    (nls : NodeLevelStats) (node : Nat) :
    alGet ((ps.foldl processProcessorStep nls).kvBytesReadGroupedByNode) node
      = alGet nls.kvBytesReadGroupedByNode node
        + (procContribsAt ps node (fun cs => cs.kv.bytesRead)).sum := by
  induction ps generalizing nls with
  | nil => simp [procContribsAt]
  | cons p rest ih =>
    simp only [List.foldl_cons]
    rw [ih]
    cases hs : p.2.stats with
    | none => simp [processProcessorStep, hs, procContribsAt, List.filterMap_cons]
    | some cs =>
      by_cases hn : p.2.nodeID = node <;>
        simp [processProcessorStep, hs, procContribsAt, List.filterMap_cons, hn,
          alGet_alAdd] <;> ring

theorem procFold_kvRowsRead (ps : List (Nat × ProcessorStatsEntry))
    (nls : NodeLevelStats) (node : Nat) :
    alGet ((ps.foldl processProcessorStep nls).kvRowsReadGroupedByNode) node
      = alGet nls.kvRowsReadGroupedByNode node
        + (procContribsAt ps node (fun cs => cs.kv.tuplesRead)).sum := by
  induction ps generalizing nls with
  | nil => simp [procContribsAt]
  | cons p rest ih =>
    simp only [List.foldl_cons]
    rw [ih]
    cases hs : p.2.stats with
    | none => simp [processProcessorStep, hs, procContribsAt, List.filterMap_cons]
    | some cs =>
      by_cases hn : p.2.nodeID = node <;>
        simp [processProcessorStep, hs, procContribsAt, List.filterMap_cons, hn,
          alGet_alAdd] <;> ring

theorem procFold_kvTime (ps : List (Nat × ProcessorStatsEntry))
    (nls : NodeLevelStats) (node : Nat) :
    alGet ((ps.foldl processProcessorStep nls).kvTimeGroupedByNode) node
      = alGet nls.kvTimeGroupedByNode node
        + (procContribsAt ps node (fun cs => cs.kv.kvTime)).sum := by
  induction ps generalizing nls with
  | nil => simp [procContribsAt]
  | cons p rest ih =>
    simp only [List.foldl_cons]
    rw [ih]
    cases hs : p.2.stats with
    | none => simp [processProcessorStep, hs, procContribsAt, List.filterMap_cons]
    | some cs =>
      by_cases hn : p.2.nodeID = node <;>
        simp [processProcessorStep, hs, procContribsAt, List.filterMap_cons, hn,
          alGet_alAdd] <;> ring

theorem procFold_contentionTime (ps : List (Nat × ProcessorStatsEntry))
    (nls : NodeLevelStats) (node : Nat) :
    alGet ((ps.foldl processProcessorStep nls).contentionTimeGroupedByNode) node
      = alGet nls.contentionTimeGroupedByNode node
        + (procContribsAt ps node (fun cs => cs.kv.contentionTime)).sum := by
  induction ps generalizing nls with
  | nil => simp [procContribsAt]
  | cons p rest ih =>
    simp only [List.foldl_cons]
    rw [ih]
    cases hs : p.2.stats with
    | none => simp [processProcessorStep, hs, procContribsAt, List.filterMap_cons]
    | some cs =>
      by_cases hn : p.2.nodeID = node <;>
        simp [processProcessorStep, hs, procContribsAt, List.filterMap_cons, hn,
          alGet_alAdd] <;> ring

/-! Claim theorems. -/

/-- C1: the query-level reduction of `ProcessStats` collapses the node-keyed
series as follows: `NetworkBytesSent`, `KVBytesRead`, `KVRowsRead`, `KVTime`
and `NetworkMessages` are each the sum of the corresponding per-node series
over all nodes; `MaxMemUsage` is the maximum of the per-node max-memory
series; and `ContentionTime` is derived by summing the kv-time per-node
series rather than the contention-time series. -/
theorem processStats_queryLevel_reduction (a : FlowMetadata) :
    (ProcessStats a).2.1.networkBytesSent
        = (((ProcessStats a).1.networkBytesSentGroupedByNode).map Prod.snd).sum
    ∧ (ProcessStats a).2.1.kvBytesRead
        = (((ProcessStats a).1.kvBytesReadGroupedByNode).map Prod.snd).sum
    ∧ (ProcessStats a).2.1.kvRowsRead
        = (((ProcessStats a).1.kvRowsReadGroupedByNode).map Prod.snd).sum
    ∧ (ProcessStats a).2.1.kvTime
        = (((ProcessStats a).1.kvTimeGroupedByNode).map Prod.snd).sum
    ∧ (ProcessStats a).2.1.networkMessages
        = (((ProcessStats a).1.networkMessagesGroupedByNode).map Prod.snd).sum
    ∧ (ProcessStats a).2.1.maxMemUsage
        = (((ProcessStats a).1.maxMemoryUsageGroupedByNode).map Prod.snd).foldl max 0
    ∧ (ProcessStats a).2.1.contentionTime
        = (((ProcessStats a).1.kvTimeGroupedByNode).map Prod.snd).sum := by
  refine ⟨?_, ?_, ?_, ?_, ?_, ?_, ?_⟩ <;>
    simp [ProcessStats, alSumLoop_eq, alMaxLoop_eq]

/-- C4: for every node, the node-level max-memory value equals the maximum
(never the sum) over every present peak-memory value from both sources for
that node: the flow sub-bags of streams originating at the node and the
entries of the node's flow-slot list. -/
theorem nodeLevel_maxMemory_is_max (a : FlowMetadata) (node : Nat) :
    alGet ((ProcessStats a).1.maxMemoryUsageGroupedByNode) node
      = (streamPeaksAt a.streamStats node ++ flowPeaksAt a.flowStats node).foldl max 0 := by
  have h1 : (ProcessStats a).1
      = a.flowStats.foldl processFlowStep
          (a.streamStats.foldl processStreamStep
            (a.processorStats.foldl processProcessorStep initNodeLevelStats, [])).1 := rfl
  rw [h1, flowFold_maxMem, streamFold_maxMem]
  have h2 : alGet
      ((a.processorStats.foldl processProcessorStep
        initNodeLevelStats).maxMemoryUsageGroupedByNode) node = 0 := by
    rw [(procFold_preserves _ _).2.1]
    rfl
  rw [h2, List.foldl_append]

/-- C7: for every node, each of the four additive processor-sourced
node-level metrics (kv-bytes-read, kv-rows-read, kv-time, contention-time)
equals the sum of that field over the processors owned by that node whose
bag is present; a processor whose bag is absent contributes nothing. -/
theorem processor_metrics_sum_skip_absent (a : FlowMetadata) (node : Nat) :
    alGet ((ProcessStats a).1.kvBytesReadGroupedByNode) node
        = (procContribsAt a.processorStats node (fun cs => cs.kv.bytesRead)).sum
    ∧ alGet ((ProcessStats a).1.kvRowsReadGroupedByNode) node
        = (procContribsAt a.processorStats node (fun cs => cs.kv.tuplesRead)).sum
    ∧ alGet ((ProcessStats a).1.kvTimeGroupedByNode) node
        = (procContribsAt a.processorStats node (fun cs => cs.kv.kvTime)).sum
    ∧ alGet ((ProcessStats a).1.contentionTimeGroupedByNode) node
        = (procContribsAt a.processorStats node (fun cs => cs.kv.contentionTime)).sum := by
  have h1 : (ProcessStats a).1
      = a.flowStats.foldl processFlowStep
          (a.streamStats.foldl processStreamStep
            (a.processorStats.foldl processProcessorStep initNodeLevelStats, [])).1 := rfl
  rw [h1]
  refine ⟨?_, ?_, ?_, ?_⟩
  · rw [(flowFold_preserves _ _).2.1, (streamFold_preserves _ _).1,
      procFold_kvBytesRead]
    simp [initNodeLevelStats, alGet, mapGet?]
  · rw [(flowFold_preserves _ _).2.2.1, (streamFold_preserves _ _).2.1,
      procFold_kvRowsRead]
    simp [initNodeLevelStats, alGet, mapGet?]
  · rw [(flowFold_preserves _ _).2.2.2.1, (streamFold_preserves _ _).2.2.1,
      procFold_kvTime]
    simp [initNodeLevelStats, alGet, mapGet?]
  · rw [(flowFold_preserves _ _).2.2.2.2.2, (streamFold_preserves _ _).2.2.2,
      procFold_contentionTime]
    simp [initNodeLevelStats, alGet, mapGet?]

/-- C8: the fold operation `QueryLevelStats.Accumulate` combines two
instances by summing each of the six additive fields and taking the maximum
of the peak-memory field. -/
theorem queryLevelStats_accumulate_fold (s other : QueryLevelStats) :
    QueryLevelStats.Accumulate s other =
      ⟨s.networkBytesSent + other.networkBytesSent,
       max s.maxMemUsage other.maxMemUsage,
       s.kvBytesRead + other.kvBytesRead,
       s.kvRowsRead + other.kvRowsRead,
       s.kvTime + other.kvTime,
       s.networkMessages + other.networkMessages,
       s.contentionTime + other.contentionTime⟩ := by
  simp [QueryLevelStats.Accumulate, maxStep_eq_max]

/-- C3: for every stream bag processed by node-level aggregation, if exactly
one of bytesReceived and bytesSent is present, its value is added to the
origin node's network-bytes-sent series; if both are present or both absent,
an error is recorded, the stream contributes nothing to that series, and the
step still returns (the pass continues with a fully populated result). The
same exclusivity rule holds independently for messagesReceived and
messagesSent with respect to the network-messages series. -/
theorem stream_exclusivity_network_totals (acc : NodeLevelStats × List String)
    (p : Nat × StreamStatsEntry) (cs : ComponentStats) (h : p.2.stats = some cs) :
    ((∀ b, cs.netRx.bytesReceived = some b → cs.netTx.bytesSent = none →
        getNetworkBytesFromComponentStats cs = Except.ok b
        ∧ (processStreamStep acc p).1.networkBytesSentGroupedByNode
            = alAdd acc.1.networkBytesSentGroupedByNode p.2.originNodeID b)
    ∧ (∀ b, cs.netTx.bytesSent = some b → cs.netRx.bytesReceived = none →
        getNetworkBytesFromComponentStats cs = Except.ok b
        ∧ (processStreamStep acc p).1.networkBytesSentGroupedByNode
            = alAdd acc.1.networkBytesSentGroupedByNode p.2.originNodeID b)
    ∧ ((cs.netRx.bytesReceived = none ∧ cs.netTx.bytesSent = none)
          ∨ (∃ b1 b2, cs.netRx.bytesReceived = some b1 ∧ cs.netTx.bytesSent = some b2) →
        (∃ e, getNetworkBytesFromComponentStats cs = Except.error e)
        ∧ (processStreamStep acc p).1.networkBytesSentGroupedByNode
            = acc.1.networkBytesSentGroupedByNode
        ∧ acc.2.length < (processStreamStep acc p).2.length))
    ∧ ((∀ n, cs.netRx.messagesReceived = some n → cs.netTx.messagesSent = none →
        getNumNetworkMessagesFromComponentsStats cs = Except.ok n
        ∧ (processStreamStep acc p).1.networkMessagesGroupedByNode
            = alAdd acc.1.networkMessagesGroupedByNode p.2.originNodeID n)
    ∧ (∀ n, cs.netTx.messagesSent = some n → cs.netRx.messagesReceived = none →
        getNumNetworkMessagesFromComponentsStats cs = Except.ok n
        ∧ (processStreamStep acc p).1.networkMessagesGroupedByNode
            = alAdd acc.1.networkMessagesGroupedByNode p.2.originNodeID n)
    ∧ ((cs.netRx.messagesReceived = none ∧ cs.netTx.messagesSent = none)
          ∨ (∃ n1 n2, cs.netRx.messagesReceived = some n1 ∧ cs.netTx.messagesSent = some n2) →
        (∃ e, getNumNetworkMessagesFromComponentsStats cs = Except.error e)
        ∧ (processStreamStep acc p).1.networkMessagesGroupedByNode
            = acc.1.networkMessagesGroupedByNode
        ∧ acc.2.length < (processStreamStep acc p).2.length)) := by
  refine ⟨⟨?_, ?_, ?_⟩, ⟨?_, ?_, ?_⟩⟩
  · intro b hr ht
    have hok : getNetworkBytesFromComponentStats cs = Except.ok b := by
      simp [getNetworkBytesFromComponentStats, hr, ht]
    rw [processStreamStep_eq]
    simp [h, bytesMapUpdate, hok]
  · intro b ht hr
    have hok : getNetworkBytesFromComponentStats cs = Except.ok b := by
      simp [getNetworkBytesFromComponentStats, hr, ht]
    rw [processStreamStep_eq]
    simp [h, bytesMapUpdate, hok]
  · intro hviol
    have herr : ∃ e, getNetworkBytesFromComponentStats cs = Except.error e := by
      rcases hviol with ⟨hr, ht⟩ | ⟨b1, b2, hr, ht⟩
      · refine ⟨"could not get network bytes; neither BytesReceived and BytesSent is set", ?_⟩
        simp [getNetworkBytesFromComponentStats, hr, ht]
      · refine ⟨"could not get network bytes; both BytesReceived and BytesSent are set", ?_⟩
        simp [getNetworkBytesFromComponentStats, hr, ht]
    obtain ⟨e, he⟩ := herr
    refine ⟨⟨e, he⟩, ?_, ?_⟩
    · rw [processStreamStep_eq]
      simp [h, bytesMapUpdate, he]
    · rw [processStreamStep_eq]
      simp only [h]
      simp [bytesErrsOf, he, List.length_append]
  · intro n hr ht
    have hok : getNumNetworkMessagesFromComponentsStats cs = Except.ok n := by
      simp [getNumNetworkMessagesFromComponentsStats, hr, ht]
    rw [processStreamStep_eq]
    simp [h, messagesMapUpdate, hok]
  · intro n ht hr
    have hok : getNumNetworkMessagesFromComponentsStats cs = Except.ok n := by
      simp [getNumNetworkMessagesFromComponentsStats, hr, ht]
    rw [processStreamStep_eq]
    simp [h, messagesMapUpdate, hok]
  · intro hviol
    have herr : ∃ e, getNumNetworkMessagesFromComponentsStats cs = Except.error e := by
      rcases hviol with ⟨hr, ht⟩ | ⟨n1, n2, hr, ht⟩
      · refine ⟨"could not get network messages; neither MessagesReceived and MessagesSent is set", ?_⟩
        simp [getNumNetworkMessagesFromComponentsStats, hr, ht]
      · refine ⟨"could not get network messages; both MessagesReceived and MessagesSent are set", ?_⟩
        simp [getNumNetworkMessagesFromComponentsStats, hr, ht]
    obtain ⟨e, he⟩ := herr
    refine ⟨⟨e, he⟩, ?_, ?_⟩
    · rw [processStreamStep_eq]
      simp [h, messagesMapUpdate, he]
    · rw [processStreamStep_eq]
      simp only [h]
      simp [messagesErrsOf, he, List.length_append]

/-- Statistics bag with every optional field absent and zero KV counters. -/
def bagEmpty : ComponentStats := ⟨⟨none, none⟩, ⟨none, none⟩, ⟨0, 0, 0, 0⟩, ⟨none⟩⟩

/-- Stream bag carrying only a receive-side byte count. -/
def csBytesOnly : ComponentStats := { bagEmpty with netRx := ⟨some 7, none⟩ }

/-- Stream entry on origin node 1 carrying `csBytesOnly`. -/
def pStreamBytesOnly : Nat × StreamStatsEntry := (1, ⟨1, 2, some csBytesOnly⟩)

/-- Empty aggregation accumulator. -/
def accEmpty : NodeLevelStats × List String := (initNodeLevelStats, [])

theorem stream_exclusivity_network_totals_witness :
    getNetworkBytesFromComponentStats csBytesOnly = Except.ok 7
    ∧ (processStreamStep accEmpty pStreamBytesOnly).1.networkBytesSentGroupedByNode
        = alAdd accEmpty.1.networkBytesSentGroupedByNode 1 7 :=
  (stream_exclusivity_network_totals accEmpty pStreamBytesOnly csBytesOnly rfl).1.1 7 rfl rfl

/-- C9: the per-stream metrics are computed independently: a bag whose byte
counts violate the exclusivity rule but whose message counts satisfy it (or
vice versa) still has the valid metric added to the origin node's series,
and the flow sub-bag peak-memory value (when present) always participates in
the origin node's max-memory reduction regardless of either violation. -/
theorem stream_metrics_independent (acc : NodeLevelStats × List String)
    (p : Nat × StreamStatsEntry) (cs : ComponentStats) (h : p.2.stats = some cs) :
    ((∃ e, getNetworkBytesFromComponentStats cs = Except.error e) →
      ∀ n, getNumNetworkMessagesFromComponentsStats cs = Except.ok n →
        (processStreamStep acc p).1.networkMessagesGroupedByNode
          = alAdd acc.1.networkMessagesGroupedByNode p.2.originNodeID n)
    ∧ ((∃ e, getNumNetworkMessagesFromComponentsStats cs = Except.error e) →
      ∀ b, getNetworkBytesFromComponentStats cs = Except.ok b →
        (processStreamStep acc p).1.networkBytesSentGroupedByNode
          = alAdd acc.1.networkBytesSentGroupedByNode p.2.originNodeID b)
    ∧ (∀ v, cs.flowStats.maxMemUsage = some v →
        alGet ((processStreamStep acc p).1.maxMemoryUsageGroupedByNode) p.2.originNodeID
          = max (alGet acc.1.maxMemoryUsageGroupedByNode p.2.originNodeID) v) := by
  refine ⟨?_, ?_, ?_⟩
  · rintro ⟨e, he⟩ n hok
    rw [processStreamStep_eq]
    simp [h, messagesMapUpdate, hok]
  · rintro ⟨e, he⟩ b hok
    rw [processStreamStep_eq]
    simp [h, bytesMapUpdate, hok]
  · intro v hv
    rw [processStreamStep_eq]
    simp only [h]
    rw [alGet_maxMemUpdate]
    simp [hv]

/-- Stream bag violating byte exclusivity (both sides set) while carrying a
valid send-side message count and a peak-memory value. -/
def csMixed : ComponentStats :=
  { bagEmpty with
    netRx := ⟨some 3, none⟩
    netTx := ⟨some 5, some 4⟩
    flowStats := ⟨some 50⟩ }

/-- Stream entry on origin node 1 carrying `csMixed`. -/
def pStreamMixed : Nat × StreamStatsEntry := (1, ⟨1, 2, some csMixed⟩)

theorem stream_metrics_independent_witness :
    (processStreamStep accEmpty pStreamMixed).1.networkMessagesGroupedByNode
        = alAdd accEmpty.1.networkMessagesGroupedByNode 1 4
    ∧ alGet ((processStreamStep accEmpty pStreamMixed).1.maxMemoryUsageGroupedByNode) 1
        = max (alGet accEmpty.1.maxMemoryUsageGroupedByNode 1) 50 :=
  ⟨(stream_metrics_independent accEmpty pStreamMixed csMixed rfl).1
      ⟨"could not get network bytes; both BytesReceived and BytesSent are set", rfl⟩ 4 rfl,
   (stream_metrics_independent accEmpty pStreamMixed csMixed rfl).2.2 50 rfl⟩

/-- C5: trace ingestion (`AddTrace`) attaches a processor or stream bag found
in the topology with overwrite (last-write-wins) semantics, appends a flow
bag to the node's flow-slot list, and on any reference absent from the
topology returns a descriptive error immediately, aborting the call while
returning the state accumulated so far, so entries applied earlier in the
same call remain applied. -/
theorem addTrace_attach_semantics (a : FlowMetadata) (comp : ComponentID)
    (cs cs2 : ComponentStats) (rest : List (ComponentID × ComponentStats)) :
    (comp.type = ComponentType.processor →
      (∀ q, mapGet? a.processorStats comp.id = some q →
        AddTrace a ((comp, cs) :: rest)
          = AddTrace
              { a with
                processorStats := mapSet a.processorStats comp.id
                  { q with stats := some cs } } rest)
      ∧ (mapGet? a.processorStats comp.id = none →
        AddTrace a ((comp, cs) :: rest) = (a, some (errUnknownProcessor comp.id)))
      ∧ (∀ q, mapGet? a.processorStats comp.id = some q →
        mapGet? ((AddTrace a [(comp, cs), (comp, cs2)]).1).processorStats comp.id
          = some { q with stats := some cs2 }))
    ∧ (comp.type = ComponentType.stream →
      (∀ q, mapGet? a.streamStats comp.id = some q →
        AddTrace a ((comp, cs) :: rest)
          = AddTrace
              { a with
                streamStats := mapSet a.streamStats comp.id
                  { q with stats := some cs } } rest)
      ∧ (mapGet? a.streamStats comp.id = none →
        AddTrace a ((comp, cs) :: rest) = (a, some (errUnknownStream comp.id)))
      ∧ (∀ q, mapGet? a.streamStats comp.id = some q →
        mapGet? ((AddTrace a [(comp, cs), (comp, cs2)]).1).streamStats comp.id
          = some { q with stats := some cs2 }))
    ∧ (comp.type = ComponentType.flow →
      (∀ f, mapGet? a.flowStats comp.nodeID = some f →
        AddTrace a ((comp, cs) :: rest)
          = AddTrace
              { a with
                flowStats := mapSet a.flowStats comp.nodeID
                  ⟨f.stats ++ [cs]⟩ } rest)
      ∧ (mapGet? a.flowStats comp.nodeID = none →
        AddTrace a ((comp, cs) :: rest) = (a, some (errUnknownFlow comp.nodeID)))) := by
  refine ⟨fun ht => ⟨?_, ?_, ?_⟩, fun ht => ⟨?_, ?_, ?_⟩, fun ht => ⟨?_, ?_⟩⟩
  · intro q hq
    simp [AddTrace, ht, hq]
  · intro hq
    simp [AddTrace, ht, hq]
  · intro q hq
    simp [AddTrace, ht, hq, mapGet?_mapSet]
  · intro q hq
    simp [AddTrace, ht, hq]
  · intro hq
    simp [AddTrace, ht, hq]
  · intro q hq
    simp [AddTrace, ht, hq, mapGet?_mapSet]
  · intro f hf
    simp [AddTrace, ht, hf]
  · intro hf
    simp [AddTrace, ht, hf]

/-- Topology with processor 5 owned by node 1 and nothing else. -/
def mdOneProc : FlowMetadata := ⟨[(5, ⟨1, none⟩)], [], []⟩

/-- Component reference to processor 5. -/
def compProc5 : ComponentID := ⟨ComponentType.processor, 5, 0⟩

/-- Component reference to the unknown processor 9. -/
def compProc9 : ComponentID := ⟨ComponentType.processor, 9, 0⟩

theorem addTrace_attach_semantics_witness :
    mapGet? ((AddTrace mdOneProc
        [(compProc5, bagEmpty), (compProc5, csBytesOnly)]).1).processorStats 5
      = some ⟨1, some csBytesOnly⟩
    ∧ AddTrace mdOneProc [(compProc9, bagEmpty)]
      = (mdOneProc, some (errUnknownProcessor 9)) :=
  ⟨((addTrace_attach_semantics mdOneProc compProc5 bagEmpty csBytesOnly []).1
      rfl).2.2 ⟨1, none⟩ rfl,
   ((addTrace_attach_semantics mdOneProc compProc9 bagEmpty bagEmpty []).1
      rfl).2.1 rfl⟩

/-- Outcome of running ingestion then reduction of one topology against the
shared trace: the query-level scalar when both succeed, `none` otherwise. -/
def analyzerOutcome (trace : List (ComponentID × ComponentStats))
    (metadata : FlowMetadata) : Option QueryLevelStats :=
  match (AddTrace metadata trace).2 with
  | some _ => none
  | none =>
    if (ProcessStats (AddTrace metadata trace).1).2.2 = []
    then some (ProcessStats (AddTrace metadata trace).1).2.1
    else none

/-- Errors contributed by one topology inside the driver loop. -/
def topologyErrors (trace : List (ComponentID × ComponentStats))
    (metadata : FlowMetadata) : List String :=
  match (AddTrace metadata trace).2 with
  | some e => ["error analyzing trace statistics: " ++ e]
  | none => (ProcessStats (AddTrace metadata trace).1).2.2

theorem driverFold_characterization (trace : List (ComponentID × ComponentStats))
    (ms : List FlowMetadata) (acc : QueryLevelStats × List String) :
    ms.foldl (driverStep trace) acc
      = ((ms.filterMap (analyzerOutcome trace)).getLastD acc.1,
         acc.2 ++ (ms.map (topologyErrors trace)).flatten) := by
  induction ms generalizing acc with
  | nil => simp
  | cons md rest ih =>
    simp only [List.foldl_cons]
    rw [ih]
    cases he : (AddTrace md trace).2 with
    | some e =>
      simp [driverStep, he, analyzerOutcome, topologyErrors, List.filterMap_cons]
    | none =>
      by_cases hp : (ProcessStats (AddTrace md trace).1).2.2 = []
      · have hout : analyzerOutcome trace md
            = some (ProcessStats (AddTrace md trace).1).2.1 := by
          simp [analyzerOutcome, he, hp]
        have hte : topologyErrors trace md = [] := by
          simp [topologyErrors, he, hp]
        simp only [driverStep, he, List.filterMap_cons, hout, List.map_cons, hte,
          List.flatten_cons, List.nil_append, List.getLastD_cons]
        rw [if_pos hp]
      · have hout : analyzerOutcome trace md = none := by
          simp [analyzerOutcome, he, hp]
        have hte : topologyErrors trace md
            = (ProcessStats (AddTrace md trace).1).2.2 := by
          simp [topologyErrors, he]
        simp only [driverStep, he, List.filterMap_cons, hout, List.map_cons, hte,
          List.flatten_cons]
        rw [if_neg hp]
        simp [List.append_assoc]

/-- C2: for every list of topologies and every shared trace, the driver
`GetQueryLevelStats` returns the query-level scalar of the last successfully
processed topology only (never an accumulation across topologies) and the
concatenation of every per-topology failure; in particular, if an earlier
topology fails ingestion with an unknown-id error and a later topology
succeeds, the returned scalar equals the later topology's result and the
returned error is exactly the wrap of the earlier failure. -/
theorem getQueryLevelStats_last_success (trace : List (ComponentID × ComponentStats)) :
    (∀ ms : List FlowMetadata,
      GetQueryLevelStats trace ms
        = ((ms.filterMap (analyzerOutcome trace)).getLastD zeroQueryLevelStats,
           (ms.map (topologyErrors trace)).flatten))
    ∧ (∀ m1 m2 e1 q2, (AddTrace m1 trace).2 = some e1 →
        analyzerOutcome trace m2 = some q2 →
        GetQueryLevelStats trace [m1, m2]
          = (q2, ["error analyzing trace statistics: " ++ e1])) := by
  constructor
  · intro ms
    unfold GetQueryLevelStats
    rw [driverFold_characterization]
    simp
  · intro m1 m2 e1 q2 h1 h2
    unfold GetQueryLevelStats
    rw [driverFold_characterization]
    have hout1 : analyzerOutcome trace m1 = none := by
      simp [analyzerOutcome, h1]
    have hte1 : topologyErrors trace m1
        = ["error analyzing trace statistics: " ++ e1] := by
      simp [topologyErrors, h1]
    have hte2 : topologyErrors trace m2 = [] := by
      unfold analyzerOutcome at h2
      unfold topologyErrors
      cases he2 : (AddTrace m2 trace).2 with
      | some e => rw [he2] at h2; simp at h2
      | none =>
        rw [he2] at h2
        by_cases hp2 : (ProcessStats (AddTrace m2 trace).1).2.2 = []
        · simpa using hp2
        · rw [if_neg hp2] at h2; simp at h2
    simp [List.filterMap_cons, hout1, h2, hte1, hte2, List.getLastD_cons]

/-- Topology with no components at all. -/
def mdEmpty : FlowMetadata := ⟨[], [], []⟩

/-- Trace carrying one bag for processor 5. -/
def traceProc5 : List (ComponentID × ComponentStats) := [(compProc5, csBytesOnly)]

theorem getQueryLevelStats_last_success_witness :
    GetQueryLevelStats traceProc5 [mdEmpty, mdOneProc]
      = (⟨0, 0, 0, 0, 0, 0, 0⟩,
         ["error analyzing trace statistics: " ++ errUnknownProcessor 5]) :=
  (getQueryLevelStats_last_success traceProc5).2 mdEmpty mdOneProc
    (errUnknownProcessor 5) ⟨0, 0, 0, 0, 0, 0, 0⟩ rfl rfl

/-- C10: in the driver, a topology whose reduction (`ProcessStats`) returns
recoverable errors is treated like an ingestion failure for result
selection: its computed scalar is discarded and only its errors are combined
into the returned error, so appending such a topology leaves the returned
scalar unchanged while extending the returned error, and the returned scalar
is the zero value when no topology succeeded. -/
theorem driver_discards_failed_reduction (trace : List (ComponentID × ComponentStats))
    (ms : List FlowMetadata) (md : FlowMetadata)
    (h1 : (AddTrace md trace).2 = none)
    (h2 : (ProcessStats (AddTrace md trace).1).2.2 ≠ []) :
    (GetQueryLevelStats trace (ms ++ [md])).1 = (GetQueryLevelStats trace ms).1
    ∧ (GetQueryLevelStats trace (ms ++ [md])).2
        = (GetQueryLevelStats trace ms).2
          ++ (ProcessStats (AddTrace md trace).1).2.2
    ∧ (ms.filterMap (analyzerOutcome trace) = [] →
        (GetQueryLevelStats trace ms).1 = zeroQueryLevelStats) := by
  have hout : analyzerOutcome trace md = none := by
    simp [analyzerOutcome, h1, h2]
  have hte : topologyErrors trace md = (ProcessStats (AddTrace md trace).1).2.2 := by
    simp [topologyErrors, h1]
  have hc1 : GetQueryLevelStats trace (ms ++ [md])
      = (((ms ++ [md]).filterMap (analyzerOutcome trace)).getLastD zeroQueryLevelStats,
         ((ms ++ [md]).map (topologyErrors trace)).flatten) := by
    unfold GetQueryLevelStats
    rw [driverFold_characterization]
    simp
  have hc2 : GetQueryLevelStats trace ms
      = ((ms.filterMap (analyzerOutcome trace)).getLastD zeroQueryLevelStats,
         (ms.map (topologyErrors trace)).flatten) := by
    unfold GetQueryLevelStats
    rw [driverFold_characterization]
    simp
  refine ⟨?_, ?_, ?_⟩
  · rw [hc1, hc2]
    simp [List.filterMap_append, hout]
  · rw [hc1, hc2]
    simp [List.map_append, List.flatten_append, hte]
  · intro hnone
    rw [hc2, hnone]
    rfl

/-- Topology with remote stream 7 from node 1 to node 2 and nothing else. -/
def mdOneStream : FlowMetadata := ⟨[], [(7, ⟨1, 2, none⟩)], []⟩

/-- Trace carrying one bag for stream 7 with every optional network field
absent, violating both exclusivity rules. -/
def traceStream7 : List (ComponentID × ComponentStats) :=
  [(⟨ComponentType.stream, 7, 0⟩, bagEmpty)]

theorem driver_discards_failed_reduction_witness :
    (GetQueryLevelStats traceStream7 ([] ++ [mdOneStream])).1
        = (GetQueryLevelStats traceStream7 []).1
    ∧ (GetQueryLevelStats traceStream7 ([] ++ [mdOneStream])).2
        = (GetQueryLevelStats traceStream7 []).2
          ++ (ProcessStats (AddTrace mdOneStream traceStream7).1).2.2
    ∧ (([] : List FlowMetadata).filterMap (analyzerOutcome traceStream7) = [] →
        (GetQueryLevelStats traceStream7 []).1 = zeroQueryLevelStats) :=
  driver_discards_failed_reduction traceStream7 [] mdOneStream rfl (by decide)

/-! Characterization of `NewFlowMetadata` on plans with distinct ids. -/

/-- Keys of an association-list map. -/
def mapKeys {α : Type} (m : List (Nat × α)) : List Nat := m.map Prod.fst

/-- Every id in `ids` is absent from the map `m`. -/
def freshAll {α : Type} (m : List (Nat × α)) (ids : List Nat) : Prop :=
  ∀ k ∈ ids, mapGet? m k = none

theorem mapGet?_append {α : Type} (m1 m2 : List (Nat × α)) (key : Nat) :
    mapGet? (m1 ++ m2) key =
      match mapGet? m1 key with
      | some v => some v
      | none => mapGet? m2 key := by
  induction m1 with
  | nil => simp [mapGet?]
  | cons p rest ih =>
    obtain ⟨pk, pv⟩ := p
    by_cases h : pk = key <;> simp [mapGet?, h, ih]

theorem mapGet?_append_none {α : Type} (m1 m2 : List (Nat × α)) (key : Nat)
    (h1 : mapGet? m1 key = none) (h2 : mapGet? m2 key = none) :
    mapGet? (m1 ++ m2) key = none := by
  rw [mapGet?_append, h1]
  exact h2

theorem mapGet?_singleton_none {α : Type} (k key : Nat) (v : α) (h : k ≠ key) :
    mapGet? [(k, v)] key = none := by
  simp [mapGet?, h]

/-- Stream identities registered from one stream descriptor list: only the
remote streams, keyed by stream id, with origin the current node and
destination the declared target. -/
def remoteEntriesOfStreams (nodeID : Nat) (streams : List StreamEndpointSpec) :
    List (Nat × StreamStatsEntry) :=
  streams.filterMap (fun s =>
    if s.type = StreamEndpointType.remote
    then some (s.streamID, ⟨nodeID, s.targetNodeID, none⟩) else none)

/-- Stream identities registered from one processor's outputs. -/
def streamEntriesOfProc (nodeID : Nat) (proc : ProcessorSpec) :
    List (Nat × StreamStatsEntry) :=
  (proc.output.map (fun output => remoteEntriesOfStreams nodeID output.streams)).flatten

/-- Stream identities registered from one processor list. -/
def streamEntriesOfProcs (nodeID : Nat) (procs : List ProcessorSpec) :
    List (Nat × StreamStatsEntry) :=
  (procs.map (streamEntriesOfProc nodeID)).flatten

/-- Stream identities registered from the whole plan. -/
def planStreamEntries (flows : List (Nat × FlowSpec)) :
    List (Nat × StreamStatsEntry) :=
  (flows.map (fun p => streamEntriesOfProcs p.1 p.2.processors)).flatten

/-- Processor identities registered from one processor list of a node. -/
def procEntriesOfProcs (nodeID : Nat) (procs : List ProcessorSpec) :
    List (Nat × ProcessorStatsEntry) :=
  procs.map (fun proc => (proc.processorID, ⟨nodeID, none⟩))

/-- Processor identities registered from the whole plan. -/
def planProcessorEntries (flows : List (Nat × FlowSpec)) :
    List (Nat × ProcessorStatsEntry) :=
  (flows.map (fun p => procEntriesOfProcs p.1 p.2.processors)).flatten

/-- Flow slots registered from the whole plan: one empty slot per node. -/
def planFlowSlots (flows : List (Nat × FlowSpec)) : List (Nat × FlowStatsEntry) :=
  flows.map (fun p => (p.1, ⟨[]⟩))

theorem streamsFold_eq (nodeID : Nat) (streams : List StreamEndpointSpec)
    (a : FlowMetadata)
    (hf : freshAll a.streamStats (mapKeys (remoteEntriesOfStreams nodeID streams)))
    (hn : (mapKeys (remoteEntriesOfStreams nodeID streams)).Nodup) :
    streams.foldl (registerStream nodeID) a
      = { a with
          streamStats := a.streamStats ++ remoteEntriesOfStreams nodeID streams } := by
  induction streams generalizing a with
  | nil => simp [remoteEntriesOfStreams]
  | cons s rest ih =>
    by_cases hr : s.type = StreamEndpointType.remote
    · have hhead : remoteEntriesOfStreams nodeID (s :: rest)
          = (s.streamID, ⟨nodeID, s.targetNodeID, none⟩)
              :: remoteEntriesOfStreams nodeID rest := by
        simp [remoteEntriesOfStreams, List.filterMap_cons, hr]
      have hfhead : mapGet? a.streamStats s.streamID = none := by
        apply hf
        rw [hhead]
        simp [mapKeys]
      have hnrest : (mapKeys (remoteEntriesOfStreams nodeID rest)).Nodup := by
        rw [hhead] at hn
        simp only [mapKeys, List.map_cons, List.nodup_cons] at hn
        exact hn.2
      have hsid : s.streamID ∉ mapKeys (remoteEntriesOfStreams nodeID rest) := by
        rw [hhead] at hn
        simp only [mapKeys, List.map_cons, List.nodup_cons] at hn
        exact hn.1
      simp only [List.foldl_cons]
      rw [show registerStream nodeID a s
          = { a with
              streamStats := a.streamStats
                ++ [(s.streamID, ⟨nodeID, s.targetNodeID, none⟩)] } by
        simp only [registerStream, hr, if_true]
        rw [mapSet_of_get_none _ _ _ hfhead]]
      rw [ih]
      · rw [hhead]
        simp [List.append_assoc]
      · intro k hk
        refine mapGet?_append_none _ _ _ (hf k ?_) ?_
        · rw [hhead]
          simp only [mapKeys, List.map_cons]
          exact List.mem_cons_of_mem _ hk
        · refine mapGet?_singleton_none _ _ _ ?_
          intro he
          exact hsid (he ▸ hk)
      · exact hnrest
    · have hsame : remoteEntriesOfStreams nodeID (s :: rest)
          = remoteEntriesOfStreams nodeID rest := by
        simp [remoteEntriesOfStreams, List.filterMap_cons, hr]
      simp only [List.foldl_cons]
      rw [show registerStream nodeID a s = a by simp [registerStream, hr]]
      rw [ih]
      · rw [hsame]
      · rw [hsame] at hf
        exact hf
      · rw [hsame] at hn
        exact hn

theorem mapKeys_append {α : Type} (m1 m2 : List (Nat × α)) :
    mapKeys (m1 ++ m2) = mapKeys m1 ++ mapKeys m2 := by
  simp [mapKeys]

theorem mapGet?_eq_none_of_not_mem_keys {α : Type} (m : List (Nat × α)) (key : Nat)
    (h : key ∉ mapKeys m) : mapGet? m key = none := by
  induction m with
  | nil => rfl
  | cons p rest ih =>
    obtain ⟨pk, pv⟩ := p
    simp only [mapKeys, List.map_cons, List.mem_cons, not_or] at h
    have hpk : pk ≠ key := fun he => h.1 he.symm
    simp only [mapGet?, hpk, if_false]
    exact ih h.2

theorem outputsFold_eq (nodeID : Nat) (outputs : List OutputRouterSpec)
    (a : FlowMetadata)
    (hf : freshAll a.streamStats
      (mapKeys ((outputs.map (fun o => remoteEntriesOfStreams nodeID o.streams)).flatten)))
    (hn : (mapKeys
      ((outputs.map (fun o => remoteEntriesOfStreams nodeID o.streams)).flatten)).Nodup) :
    outputs.foldl (fun a output => output.streams.foldl (registerStream nodeID) a) a
      = { a with
          streamStats := a.streamStats
            ++ (outputs.map (fun o => remoteEntriesOfStreams nodeID o.streams)).flatten } := by
  induction outputs generalizing a with
  | nil => simp
  | cons o rest ih =>
    simp only [List.map_cons, List.flatten_cons, mapKeys_append] at hf hn ⊢
    have hn1 := (List.nodup_append.mp hn).1
    have hn2 := (List.nodup_append.mp hn).2.1
    have hdisj := (List.nodup_append.mp hn).2.2
    simp only [List.foldl_cons]
    rw [streamsFold_eq nodeID o.streams a
      (fun k hk => hf k (List.mem_append_left _ hk)) hn1]
    rw [ih]
    · simp [List.append_assoc]
    · intro k hk
      refine mapGet?_append_none _ _ _ (hf k (List.mem_append_right _ hk)) ?_
      refine mapGet?_eq_none_of_not_mem_keys _ _ ?_
      intro hk1
      exact hdisj hk1 hk
    · exact hn2


theorem mapKeys_cons {α : Type} (k : Nat) (v : α) (m : List (Nat × α)) :
    mapKeys ((k, v) :: m) = k :: mapKeys m := rfl

theorem procEntriesOfProcs_cons (nodeID : Nat) (proc : ProcessorSpec)
    (rest : List ProcessorSpec) :
    procEntriesOfProcs nodeID (proc :: rest)
      = (proc.processorID, ⟨nodeID, none⟩) :: procEntriesOfProcs nodeID rest := rfl

theorem streamEntriesOfProcs_cons (nodeID : Nat) (proc : ProcessorSpec)
    (rest : List ProcessorSpec) :
    streamEntriesOfProcs nodeID (proc :: rest)
      = streamEntriesOfProc nodeID proc ++ streamEntriesOfProcs nodeID rest := by
  simp [streamEntriesOfProcs]

theorem registerProcessor_eq (nodeID : Nat) (proc : ProcessorSpec) (a : FlowMetadata)
    (hp : mapGet? a.processorStats proc.processorID = none)
    (hf : freshAll a.streamStats (mapKeys (streamEntriesOfProc nodeID proc)))
    (hn : (mapKeys (streamEntriesOfProc nodeID proc)).Nodup) :
    registerProcessor nodeID a proc
      = { a with
          processorStats := a.processorStats ++ [(proc.processorID, ⟨nodeID, none⟩)]
          streamStats := a.streamStats ++ streamEntriesOfProc nodeID proc } := by
  simp only [registerProcessor]
  rw [mapSet_of_get_none _ _ _ hp]
  rw [outputsFold_eq nodeID proc.output
    { a with
      processorStats := a.processorStats ++ [(proc.processorID, ⟨nodeID, none⟩)] }
    hf hn]
  rfl

theorem procsFold_eq (nodeID : Nat) (procs : List ProcessorSpec) (a : FlowMetadata)
    (hp : freshAll a.processorStats (mapKeys (procEntriesOfProcs nodeID procs)))
    (hpn : (mapKeys (procEntriesOfProcs nodeID procs)).Nodup)
    (hs : freshAll a.streamStats (mapKeys (streamEntriesOfProcs nodeID procs)))
    (hsn : (mapKeys (streamEntriesOfProcs nodeID procs)).Nodup) :
    procs.foldl (registerProcessor nodeID) a
      = { a with
          processorStats := a.processorStats ++ procEntriesOfProcs nodeID procs
          streamStats := a.streamStats ++ streamEntriesOfProcs nodeID procs } := by
  induction procs generalizing a with
  | nil => simp [procEntriesOfProcs, streamEntriesOfProcs]
  | cons proc rest ih =>
    rw [procEntriesOfProcs_cons, mapKeys_cons] at hp hpn
    rw [streamEntriesOfProcs_cons, mapKeys_append] at hs hsn
    have hphead := hp _ (List.mem_cons_self _ _)
    have hpid : proc.processorID ∉ mapKeys (procEntriesOfProcs nodeID rest) :=
      (List.nodup_cons.mp hpn).1
    have hpnrest := (List.nodup_cons.mp hpn).2
    have hsn1 := (List.nodup_append.mp hsn).1
    have hsn2 := (List.nodup_append.mp hsn).2.1
    have hsdisj := (List.nodup_append.mp hsn).2.2
    simp only [List.foldl_cons]
    rw [registerProcessor_eq nodeID proc a hphead
      (fun k hk => hs k (List.mem_append_left _ hk)) hsn1]
    have hrec := ih
      { a with
        processorStats := a.processorStats ++ [(proc.processorID, ⟨nodeID, none⟩)]
        streamStats := a.streamStats ++ streamEntriesOfProc nodeID proc }
      (fun k hk => mapGet?_append_none _ _ _ (hp k (List.mem_cons_of_mem _ hk))
        (mapGet?_singleton_none _ _ _ (fun he => hpid (he ▸ hk))))
      hpnrest
      (fun k hk => mapGet?_append_none _ _ _ (hs k (List.mem_append_right _ hk))
        (mapGet?_eq_none_of_not_mem_keys _ _ (fun hk1 => hsdisj hk1 hk)))
      hsn2
    rw [hrec]
    rw [procEntriesOfProcs_cons, streamEntriesOfProcs_cons]
    simp [List.append_assoc]

theorem planFlowSlots_cons (q : Nat × FlowSpec) (rest : List (Nat × FlowSpec)) :
    planFlowSlots (q :: rest) = (q.1, ⟨[]⟩) :: planFlowSlots rest := rfl

theorem planProcessorEntries_cons (q : Nat × FlowSpec) (rest : List (Nat × FlowSpec)) :
    planProcessorEntries (q :: rest)
      = procEntriesOfProcs q.1 q.2.processors ++ planProcessorEntries rest := by
  simp [planProcessorEntries, procEntriesOfProcs]

theorem planStreamEntries_cons (q : Nat × FlowSpec) (rest : List (Nat × FlowSpec)) :
    planStreamEntries (q :: rest)
      = streamEntriesOfProcs q.1 q.2.processors ++ planStreamEntries rest := by
  simp [planStreamEntries, streamEntriesOfProcs]

theorem registerNode_eq (a : FlowMetadata) (p : Nat × FlowSpec)
    (hflow : mapGet? a.flowStats p.1 = none)
    (hp : freshAll a.processorStats (mapKeys (procEntriesOfProcs p.1 p.2.processors)))
    (hpn : (mapKeys (procEntriesOfProcs p.1 p.2.processors)).Nodup)
    (hs : freshAll a.streamStats (mapKeys (streamEntriesOfProcs p.1 p.2.processors)))
    (hsn : (mapKeys (streamEntriesOfProcs p.1 p.2.processors)).Nodup) :
    registerNode a p
      = { a with
          processorStats := a.processorStats ++ procEntriesOfProcs p.1 p.2.processors
          streamStats := a.streamStats ++ streamEntriesOfProcs p.1 p.2.processors
          flowStats := a.flowStats ++ [(p.1, ⟨[]⟩)] } := by
  simp only [registerNode]
  rw [mapSet_of_get_none _ _ _ hflow]
  rw [procsFold_eq p.1 p.2.processors
    { a with flowStats := a.flowStats ++ [(p.1, ⟨[]⟩)] } hp hpn hs hsn]

theorem flowsFold_eq (flows : List (Nat × FlowSpec)) (a : FlowMetadata)
    (hfl : freshAll a.flowStats (mapKeys (planFlowSlots flows)))
    (hfln : (mapKeys (planFlowSlots flows)).Nodup)
    (hp : freshAll a.processorStats (mapKeys (planProcessorEntries flows)))
    (hpn : (mapKeys (planProcessorEntries flows)).Nodup)
    (hs : freshAll a.streamStats (mapKeys (planStreamEntries flows)))
    (hsn : (mapKeys (planStreamEntries flows)).Nodup) :
    flows.foldl registerNode a
      = { a with
          processorStats := a.processorStats ++ planProcessorEntries flows
          streamStats := a.streamStats ++ planStreamEntries flows
          flowStats := a.flowStats ++ planFlowSlots flows } := by
  induction flows generalizing a with
  | nil => simp [planProcessorEntries, planStreamEntries, planFlowSlots]
  | cons q rest ih =>
    rw [planFlowSlots_cons, mapKeys_cons] at hfl hfln
    rw [planProcessorEntries_cons, mapKeys_append] at hp hpn
    rw [planStreamEntries_cons, mapKeys_append] at hs hsn
    have hflhead := hfl _ (List.mem_cons_self _ _)
    have hflid : q.1 ∉ mapKeys (planFlowSlots rest) := (List.nodup_cons.mp hfln).1
    have hflnrest := (List.nodup_cons.mp hfln).2
    have hpn1 := (List.nodup_append.mp hpn).1
    have hpn2 := (List.nodup_append.mp hpn).2.1
    have hpdisj := (List.nodup_append.mp hpn).2.2
    have hsn1 := (List.nodup_append.mp hsn).1
    have hsn2 := (List.nodup_append.mp hsn).2.1
    have hsdisj := (List.nodup_append.mp hsn).2.2
    simp only [List.foldl_cons]
    rw [registerNode_eq a q hflhead
      (fun k hk => hp k (List.mem_append_left _ hk)) hpn1
      (fun k hk => hs k (List.mem_append_left _ hk)) hsn1]
    have hrec := ih
      { a with
        processorStats := a.processorStats ++ procEntriesOfProcs q.1 q.2.processors
        streamStats := a.streamStats ++ streamEntriesOfProcs q.1 q.2.processors
        flowStats := a.flowStats ++ [(q.1, ⟨[]⟩)] }
      (fun k hk => mapGet?_append_none _ _ _ (hfl k (List.mem_cons_of_mem _ hk))
        (mapGet?_singleton_none _ _ _ (fun he => hflid (he ▸ hk))))
      hflnrest
      (fun k hk => mapGet?_append_none _ _ _ (hp k (List.mem_append_right _ hk))
        (mapGet?_eq_none_of_not_mem_keys _ _ (fun hk1 => hpdisj hk1 hk)))
      hpn2
      (fun k hk => mapGet?_append_none _ _ _ (hs k (List.mem_append_right _ hk))
        (mapGet?_eq_none_of_not_mem_keys _ _ (fun hk1 => hsdisj hk1 hk)))
      hsn2
    rw [hrec]
    rw [planFlowSlots_cons, planProcessorEntries_cons, planStreamEntries_cons]
    simp [List.append_assoc]

theorem mapKeys_planFlowSlots (flows : List (Nat × FlowSpec)) :
    mapKeys (planFlowSlots flows) = flows.map Prod.fst := by
  simp [mapKeys, planFlowSlots]

theorem remoteEntries_length (nodeID : Nat) (streams : List StreamEndpointSpec) :
    (remoteEntriesOfStreams nodeID streams).length
      = (streams.filter (fun s => decide (s.type = StreamEndpointType.remote))).length := by
  induction streams with
  | nil => rfl
  | cons s rest ih =>
    have hcons : remoteEntriesOfStreams nodeID (s :: rest)
        = (if s.type = StreamEndpointType.remote
           then [(s.streamID, (⟨nodeID, s.targetNodeID, none⟩ : StreamStatsEntry))]
           else []) ++ remoteEntriesOfStreams nodeID rest := by
      by_cases hr : s.type = StreamEndpointType.remote <;>
        simp [remoteEntriesOfStreams, List.filterMap_cons, hr]
    rw [hcons]
    by_cases hr : s.type = StreamEndpointType.remote <;>
      simp [List.filter_cons, hr, ih]

/-- C6: on a plan whose node keys, processor ids and remote-stream ids are
each duplicate-free, topology construction (`NewFlowMetadata`) registers
exactly one flow-slot per distinct node, one processor identity per
processor (owned by its node), and one stream identity per remote stream
only (origin the current node, destination the declared target); local
streams are not tracked, all bags start absent, and construction is a total
function with no error path. -/
theorem newFlowMetadata_registration (flows : List (Nat × FlowSpec))
    (h1 : (flows.map Prod.fst).Nodup)
    (h2 : (mapKeys (planProcessorEntries flows)).Nodup)
    (h3 : (mapKeys (planStreamEntries flows)).Nodup) :
    NewFlowMetadata flows
      = ⟨planProcessorEntries flows, planStreamEntries flows, planFlowSlots flows⟩
    ∧ (NewFlowMetadata flows).flowStats.length = flows.length
    ∧ (NewFlowMetadata flows).processorStats.length
        = (flows.map (fun p => p.2.processors.length)).sum
    ∧ (NewFlowMetadata flows).streamStats.length
        = (flows.map (fun p => (p.2.processors.map (fun proc =>
            (proc.output.map (fun o =>
              (o.streams.filter (fun s =>
                decide (s.type = StreamEndpointType.remote))).length)).sum)).sum)).sum
    ∧ (∀ q ∈ (NewFlowMetadata flows).processorStats, q.2.stats = none)
    ∧ (∀ q ∈ (NewFlowMetadata flows).streamStats, q.2.stats = none)
    ∧ (∀ q ∈ (NewFlowMetadata flows).flowStats, q.2.stats = ([] : List ComponentStats)) := by
  have hmain : NewFlowMetadata flows
      = ⟨planProcessorEntries flows, planStreamEntries flows, planFlowSlots flows⟩ := by
    unfold NewFlowMetadata
    rw [flowsFold_eq flows ⟨[], [], []⟩
      (fun k _ => rfl) (by rw [mapKeys_planFlowSlots]; exact h1)
      (fun k _ => rfl) h2
      (fun k _ => rfl) h3]
    rfl
  refine ⟨hmain, ?_, ?_, ?_, ?_, ?_, ?_⟩
  · rw [hmain]
    simp [planFlowSlots]
  · rw [hmain]
    simp [planProcessorEntries, procEntriesOfProcs, List.length_flatten,
      List.map_map, Function.comp_def, List.length_map]
  · rw [hmain]
    simp [planStreamEntries, streamEntriesOfProcs, streamEntriesOfProc,
      List.length_flatten, List.map_map, Function.comp_def, List.length_map,
      remoteEntries_length]
  · rw [hmain]
    intro q hq
    simp only [planProcessorEntries, procEntriesOfProcs, List.mem_flatten,
      List.mem_map] at hq
    obtain ⟨l, ⟨p, hp, rfl⟩, hql⟩ := hq
    obtain ⟨proc, hproc, heq⟩ := List.mem_map.mp hql
    rw [← heq]
  · rw [hmain]
    intro q hq
    simp only [planStreamEntries, streamEntriesOfProcs, streamEntriesOfProc,
      remoteEntriesOfStreams, List.mem_flatten, List.mem_map,
      List.mem_filterMap] at hq
    obtain ⟨l, ⟨p, hp, rfl⟩, hql⟩ := hq
    obtain ⟨l2, hl2, hql2⟩ := List.mem_flatten.mp hql
    obtain ⟨proc, hproc, heq⟩ := List.mem_map.mp hl2
    rw [← heq] at hql2
    simp only [streamEntriesOfProc] at hql2
    obtain ⟨l3, hl3, hql3⟩ := List.mem_flatten.mp hql2
    obtain ⟨output, houtput, heq3⟩ := List.mem_map.mp hl3
    rw [← heq3] at hql3
    simp only [remoteEntriesOfStreams] at hql3
    obtain ⟨s, hs, he⟩ := List.mem_filterMap.mp hql3
    by_cases hr : s.type = StreamEndpointType.remote
    · rw [if_pos hr] at he
      obtain rfl := Option.some.inj he
      rfl
    · rw [if_neg hr] at he
      simp at he
  · rw [hmain]
    intro q hq
    simp only [planFlowSlots, List.mem_map] at hq
    obtain ⟨p, hp, rfl⟩ := hq
    rfl

/-- Two-node example plan: node 1 hosts processor 1 with remote stream 1 to
node 2; node 2 hosts processor 2. -/
def planExample : List (Nat × FlowSpec) :=
  [(1, ⟨[⟨1, [⟨[⟨1, StreamEndpointType.remote, 2⟩]⟩]⟩]⟩),
   (2, ⟨[⟨2, []⟩]⟩)]

theorem newFlowMetadata_registration_witness :
    NewFlowMetadata planExample
      = ⟨planProcessorEntries planExample, planStreamEntries planExample,
         planFlowSlots planExample⟩
    ∧ (NewFlowMetadata planExample).flowStats.length = planExample.length :=
  ⟨(newFlowMetadata_registration planExample (by decide) (by decide) (by decide)).1,
   (newFlowMetadata_registration planExample (by decide) (by decide) (by decide)).2.1⟩
